import Mathlib

/-!
Verification of the car-helper bot conversation engine.

This file gives a shallow embedding of the conversation core of the bot
(`main.py`, `ai_module.py`, with the SQL query helpers of `cars_database.py`
modelled over an in-memory catalog snapshot) and proves properties of the
embedded definitions.

Conventions:
* Program strings are `List Char`; `str` injects Lean string literals.
* Python `str.lower` is modelled on the ASCII and Cyrillic ranges that occur
  in the program text (`charLower`); SQLite `LOWER` folds ASCII only
  (`sqlLower`).
* The chat transport (message delivery, edits, loading indicators, inline
  keyboards) is outside the modelled core; outbound messages are collected in
  a `Reply` list in the order the handler produces their content.
* External collaborators (catalog table, canned-answer lookup, the HTTP layer
  of the AI backend, `save_user`) enter as explicit parameters of the turn
  environment.
-/

namespace CarBot

/-- Program strings are modelled as lists of characters. -/
abbrev Str := List Char

/-- Inject a Lean string literal into the model. -/
def str (s : String) : Str := s.data

/-- Python `str.lower`, restricted to the ASCII letters `A`..`Z` and the
Cyrillic letters `А`..`Я`, `Ё` (the only cased characters appearing in the
program's data). -/
def charLower (c : Char) : Char :=
  if 65 ≤ c.toNat ∧ c.toNat ≤ 90 then Char.ofNat (c.toNat + 32)
  else if 1040 ≤ c.toNat ∧ c.toNat ≤ 1071 then Char.ofNat (c.toNat + 32)
  else if c.toNat = 1025 then Char.ofNat 1105
  else c

/-- Python `s.lower()`. -/
def pyLower (s : Str) : Str := s.map charLower

/-- SQLite `LOWER(s)`: folds ASCII letters only. -/
def sqlLower (s : Str) : Str :=
  s.map (fun c => if 65 ≤ c.toNat ∧ c.toNat ≤ 90 then Char.ofNat (c.toNat + 32) else c)

/-- Whitespace stripped by the model of Python `str.strip()`. -/
def isWs (c : Char) : Bool := c = ' ' || c = '\n' || c = '\t' || c = '\r'

/-- Remove trailing characters satisfying `p`. -/
def dropTrailing (p : Char → Bool) (l : Str) : Str := (l.reverse.dropWhile p).reverse

/-- Python `str.strip()`. -/
def pyStrip (l : Str) : Str := dropTrailing isWs (l.dropWhile isWs)

/-- Characters stripped by `token.strip(" .")` in `match_cars_from_response`. -/
def isDotSpace (c : Char) : Bool := c = ' ' || c = '.'

/-- Python `token.strip(" .")`. -/
def stripDots (l : Str) : Str := dropTrailing isDotSpace (l.dropWhile isDotSpace)

/-- Python `s.replace("\n", " ")`. -/
def nlToSpace (l : Str) : Str := l.map (fun c => if c = '\n' then ' ' else c)

/-- Python `s.split(",")`. -/
def splitComma : Str → List Str
  | [] => [[]]
  | c :: rest =>
    if c = ',' then [] :: splitComma rest
    else
      match splitComma rest with
      | [] => [[c]]
      | h :: t => (c :: h) :: t

/-- Python `hay.rfind(needle)`: the largest index at which `needle` occurs in
`hay`, if any. -/
def rfindIdx (needle hay : Str) : Option Nat :=
  ((List.range (hay.length + 1)).filter (fun i => needle.isPrefixOf (hay.drop i))).getLast?

/-- A row of the `cars` table, as selected by `get_all_cars` and rebuilt into
the catalog dictionaries of `match_cars_from_response`. -/
structure Car where
  category : Str
  brand : Str
  model : Str
  price : Str
  description : Str
  image : Option Str
  specs : Str
deriving DecidableEq

/-- The `full_name` field: `f"{brand} {model}".lower()`. -/
def full_name (car : Car) : Str := pyLower (car.brand ++ [' '] ++ car.model)

/-- The deduplication key `(car["brand"], car["model"])`. -/
def carKey (car : Car) : Str × Str := (car.brand, car.model)

/-- The recommendation marker searched for (already lowercased). -/
def marker : Str := str ("рекомендую:")

/-- The `no data` sentinels skipped by the extractor. -/
def noDataTokens : List Str := [str ("нет данных"), str ("нет"), str ("none")]

/-- Python `needle in hay` substring test on strings. -/
def isSubstring (needle hay : Str) : Bool :=
  (List.range (hay.length + 1)).any (fun i => needle.isPrefixOf (hay.drop i))

/-- The per-record match test:
`car["full_name"] == token_lower or token_lower in car["full_name"]`. -/
def carTokenMatch (car : Car) (tl : Str) : Bool :=
  full_name car == tl || isSubstring tl (full_name car)

/-- Token decomposition of the text after the marker: replace newlines with
spaces, split on commas, strip each token of spaces and periods, drop empty
tokens. -/
def parseTokens (recommendations : Str) : List Str :=
  ((splitComma (nlToSpace recommendations)).map stripDots).filter (fun t => !t.isEmpty)

/-- The inner `for car in catalog` loop of `match_cars_from_response`,
threading the `acc` accumulator and the `seen` key set, with the
`if len(acc) >= 5: break` early exit. -/
def matchInner (tl : Str) : List Car → List Car → List (Str × Str) → List Car × List (Str × Str)
  | [], acc, seen => (acc, seen)
  | car :: rest, acc, seen =>
    if carTokenMatch car tl then
      let p := if carKey car ∈ seen then (acc, seen) else (acc ++ [car], carKey car :: seen)
      if 5 ≤ p.1.length then p else matchInner tl rest p.1 p.2
    else matchInner tl rest acc seen

/-- The outer `for token in tokens` loop of `match_cars_from_response`:
sentinel tokens are skipped, and the loop breaks once five records are
collected. -/
def matchOuter (catalog : List Car) : List Str → List Car → List (Str × Str) → List Car
  | [], acc, _ => acc
  | token :: rest, acc, seen =>
    let tl := pyLower token
    if tl ∈ noDataTokens then matchOuter catalog rest acc seen
    else
      let p := matchInner tl catalog acc seen
      if 5 ≤ p.1.length then p.1 else matchOuter catalog rest p.1 p.2

/-- `match_cars_from_response` of `main.py`, with the catalog snapshot
(`get_all_cars`) passed explicitly. -/
def match_cars_from_response (catalog : List Car) (response : Str) : List Car :=
  match rfindIdx marker (pyLower response) with
  | none => []
  | some idx =>
    let recommendations := pyStrip (response.drop (idx + marker.length))
    if recommendations.isEmpty then []
    else
      let tokens := parseTokens recommendations
      if tokens.isEmpty then [] else matchOuter catalog tokens [] []

/-- Modelled from the spec: all catalog records matched by one token, in
catalog order (a sentinel token matched against nothing). -/
def matchesOfToken (catalog : List Car) (token : Str) : List Car :=
  let tl := pyLower token
  if tl ∈ noDataTokens then [] else catalog.filter (fun car => carTokenMatch car tl)

/-- Modelled from the spec: deduplicate a record list by `(brand, model)`,
keeping the first occurrence of each key. -/
def dedupByKey : List Car → List (Str × Str) → List Car
  | [], _ => []
  | car :: rest, seen =>
    if carKey car ∈ seen then dedupByKey rest seen else car :: dedupByKey rest (carKey car :: seen)

/-- Modelled from the spec (sentence 5-7 of the extractor algorithm): gather
every match of every token, deduplicate by key, return at most five. -/
def matchCarsSpec (catalog : List Car) (tokens : List Str) : List Car :=
  (dedupByKey (tokens.flatMap (matchesOfToken catalog)) []).take 5

/-- Python `collections.deque(maxlen)` append: keep the last `maxlen`
elements, evicting from the front. -/
def dequeAppend (maxlen : Nat) (l : List α) (x : α) : List α :=
  let l2 := l ++ [x]
  l2.drop (l2.length - maxlen)

/-- The per-chat AI session dictionary created by `get_ai_session`:
`history` is a `deque(maxlen=10)` of `(role, text)` pairs. -/
structure AiSession where
  history : List (Str × Str)
  last_suggestions : List Car
  last_feedback : Option (Str × Str)
deriving DecidableEq

/-- The fresh session `get_ai_session` installs on first use. -/
def freshAiSession : AiSession :=
  { history := [], last_suggestions := [], last_feedback := none }

/-- `get_ai_session`: return the stored session or a fresh one (the
`setdefault` calls are no-ops here because every field is always present). -/
def get_ai_session (s : Option AiSession) : AiSession := s.getD freshAiSession

/-- The values of `user_state[chat_id]`; `idle` stands for Python `None`. -/
inductive PyState
  | idle
  | ask_name
  | ask_age
  | ask_city
  | filter_brand
  | filter_model
  | search_by_name
  | search_by_price
  | ask_ai
  | ask_ai_confirm
deriving DecidableEq

/-- The `filter_info[chat_id]` draft dictionary (absent keys are `none`). -/
structure FilterDraft where
  brand : Option Str := none
  model : Option Str := none
deriving DecidableEq

/-- The `user_info[chat_id]` profile dictionary. -/
structure Profile where
  name : Str
  age : Option Str := none
  city : Option Str := none
  id : Option Nat := none
deriving DecidableEq

/-- The per-chat slice of the module-level session maps of `main.py`:
`user_state`, `user_info`, `filter_info` and `ai_sessions` at one chat id. -/
structure ChatSession where
  state : PyState
  user : Option Profile := none
  filter_info : Option FilterDraft := none
  ai : Option AiSession := none
deriving DecidableEq

/-- Outbound messages, abstracted from the chat transport: a plain text, a
text with the category menu keyboard, or a car card with optional photo. -/
inductive Reply
  | msg (text : Str)
  | menu (text : Str)
  | card (caption : Str) (image : Option Str)
deriving DecidableEq

/-- The audit row handed to `save_ai_dialog` (the `prompt` and `user_id`
columns are not modelled: no claim depends on them). -/
structure AiDialogRecord where
  question : Str
  answer : Str
  status : Str
  error : Option Str
deriving DecidableEq

/-- The outcome of one `handle_message` call: the updated per-chat session,
the outbound messages in production order, and the audit row if one is
saved. -/
structure TurnResult where
  session : ChatSession
  replies : List Reply
  audit : Option AiDialogRecord
deriving DecidableEq

/-- Oracle for one HTTP request in `ask_ollama`: either the extracted reply
text that `_parse_text_stream` / `_extract_from_json` produce (possibly
empty), or a raised `requests.exceptions.Timeout`, or any other raised
exception with its message. -/
inductive HttpOutcome
  | ok (text : Str)
  | raiseTimeout
  | raiseOther (msg : Str)
deriving DecidableEq

/-- Exceptions that can propagate out of the `try` body of `ask_ollama`. -/
inductive PyExc
  | requestsTimeout
  | other (msg : Str)
deriving DecidableEq

/-- Python `str(exc)` for the modelled exceptions. -/
def pyExcMessage : PyExc → Str
  | .requestsTimeout => str ("Timeout")
  | .other msg => msg

/-- The `try` body of `ask_ollama`: first the streaming request, then, when
it yields an empty reply, the non-streaming fallback request. -/
def askOllamaBody (first second : HttpOutcome) : Except PyExc Str :=
  match first with
  | .raiseTimeout => .error .requestsTimeout
  | .raiseOther msg => .error (.other msg)
  | .ok reply =>
    if !reply.isEmpty then .ok reply
    else
      match second with
      | .raiseTimeout => .error .requestsTimeout
      | .raiseOther msg => .error (.other msg)
      | .ok bucket =>
        if !bucket.isEmpty then .ok bucket
        else .ok (str ("Извини, не удалось получить ответ от модели."))

/-- The two `except` clauses of `ask_ollama`: `requests.exceptions.Timeout`
and the catch-all `Exception`. -/
def askOllamaHandler : PyExc → Str
  | .requestsTimeout => str ("AI долго думает. Попробуй переформулировать вопрос или спроси чуть позже.")
  | .other msg => str ("Ошибка при обращении к AI: ") ++ msg

/-- `ask_ollama` of `ai_module.py` as the caller observes its return value. -/
def ask_ollama (first second : HttpOutcome) : Str :=
  match askOllamaBody first second with
  | .ok reply => reply
  | .error e => askOllamaHandler e

/-- Calling `ask_ollama` viewed through the Python exception channel: the body
may raise, and each raised exception is caught by one of the two `except`
clauses and converted to a returned string. -/
def askOllamaCall (first second : HttpOutcome) : Except PyExc Str :=
  match askOllamaBody first second with
  | .ok reply => .ok reply
  | .error e => .ok (askOllamaHandler e)

/-- Exceptions observable at the `await asyncio.wait_for(...)` site in
`handle_message`: the wait-for timeout, or an exception escaping the call. -/
inductive CallerExc
  | asyncTimeout
  | fromCall (e : PyExc)
deriving DecidableEq

/-- Oracle for one bounded AI invocation: whether the 60-second
`asyncio.wait_for` expired, plus the HTTP-layer outcomes inside
`ask_ollama`. -/
structure AiEnv where
  timedOut : Bool
  first : HttpOutcome
  second : HttpOutcome
deriving DecidableEq

/-- `asyncio.wait_for(asyncio.to_thread(ask_ollama, prompt), timeout=60)`:
raises `asyncio.TimeoutError` on expiry, otherwise forwards the result or
exception of `ask_ollama`. -/
def boundedInvoke (env : AiEnv) : Except CallerExc Str :=
  if env.timedOut then .error .asyncTimeout
  else
    match askOllamaCall env.first env.second with
    | .ok reply => .ok reply
    | .error e => .error (.fromCall e)

/-- Status, user-facing response and captured error of one AI turn. -/
structure AiCallResult where
  status : Str
  response : Str
  error : Option Str
deriving DecidableEq

/-- The `try / except asyncio.TimeoutError / except Exception` block of the
`ask_ai` branch of `handle_message`. -/
def aiTurnOutcome (env : AiEnv) : AiCallResult :=
  match boundedInvoke env with
  | .error .asyncTimeout =>
    { status := str ("timeout"),
      response := str ("AI долго думает. Попробуй задать вопрос ещё раз чуть позже."),
      error := none }
  | .error (.fromCall e) =>
    { status := str ("error"),
      response := str ("Не удалось получить ответ от ИИ. Попробуй ещё раз позже."),
      error := some (pyExcMessage e) }
  | .ok reply => { status := str ("ok"), response := reply, error := none }

/-- `YES_ANSWERS` of `main.py`. -/
def YES_ANSWERS : List Str :=
  [str ("да"), str ("ага"), str ("конечно"), str ("давай"), str ("yes"), str ("y")]

/-- `NO_ANSWERS` of `main.py`. -/
def NO_ANSWERS : List Str :=
  [str ("нет"), str ("неа"), str ("no"), str ("n"), str ("не надо")]

/-- `STOP_WORDS` of `main.py`. -/
def STOP_WORDS : List Str := [str ("стоп"), str ("выход"), str ("меню")]

/-- SQLite `LOWER(hay) LIKE LOWER('%needle%')` for needles without wildcard
characters. -/
def sqlLike (needle hay : Str) : Bool := isSubstring (sqlLower needle) (sqlLower hay)

/-- `search_car_by_name` of `main.py`, over the catalog snapshot standing for
the `cars` table. -/
def search_car_by_name (catalog : List Car) (query : Str) : List Car :=
  catalog.filter (fun car =>
    sqlLike query car.model || sqlLike query (car.brand ++ [' '] ++ car.model))

/-- Python `int` of a digit string. -/
def digitsToNat (l : Str) : Nat := l.foldl (fun acc c => acc * 10 + (c.toNat - 48)) 0

/-- `REPLACE(REPLACE(price, '₸', ''), ' ', '')` of the price column. -/
def cleanPrice (p : Str) : Str := p.filter (fun c => !(c = '₸' || c = ' '))

/-- The SQLite numeric coercion `... + 0` of the cleaned price text, for the
non-negative integer price strings stored in the cars table. -/
def priceValue (p : Str) : Int := Int.ofNat (digitsToNat ((cleanPrice p).takeWhile Char.isDigit))

/-- `search_car_by_price` of `main.py`: the closed band
`price - 2_000_000 .. price + 2_000_000` (`BETWEEN` is inclusive). -/
def search_car_by_price (catalog : List Car) (price : Nat) : List Car :=
  let lower : Int := (price : Int) - 2000000
  let upper : Int := (price : Int) + 2000000
  catalog.filter (fun car => decide (lower ≤ priceValue car.price ∧ priceValue car.price ≤ upper))

/-- `get_cars_by_filters` of `cars_database.py` over the catalog snapshot. -/
def get_cars_by_filters (catalog : List Car) (brand mdl : Option Str) : List Car :=
  catalog.filter (fun car =>
    (match brand with
     | none => true
     | some b => sqlLike b car.brand) &&
    (match mdl with
     | none => true
     | some m => sqlLike m car.model))

/-- `re.findall(r"\d+", text)[0]`: the first maximal run of decimal digits. -/
def firstDigitRun : Str → Option Str
  | [] => none
  | c :: rest => if c.isDigit then some (c :: rest.takeWhile Char.isDigit) else firstDigitRun rest

/-- Digit grouping of Python `f"{n:,}"`, producing groups of three from the
right (separator already replaced by a space as in the source). -/
def insertThousandsRev : Str → Str
  | a :: b :: c :: d :: rest => a :: b :: c :: ' ' :: insertThousandsRev (d :: rest)
  | l => l

/-- Python `f"{n:,}".replace(",", " ")`. -/
def pyFormatComma (n : Nat) : Str := (insertThousandsRev (Nat.repr n).data.reverse).reverse

/-- The car card caption f-string used throughout `main.py`. -/
def carCaption (car : Car) : Str :=
  str ("*") ++ car.brand ++ [' '] ++ car.model ++ str ("* — ") ++ car.price ++
  str ("\n_") ++ car.description ++ str ("_\n\n⚙️ *Характеристики:* ") ++ car.specs

/-- `send_car_card` for one record: a caption plus the optional photo. -/
def carCard (car : Car) : Reply := .card (carCaption car) car.image

/-- Fixed message texts of `handle_message`. -/
def menuPromptMsg : Str := str ("Выбери следующее действие:")

/-- Text of the return-to-menu reply on cancellation. -/
def stopMenuMsg : Str := str ("Возвращаю тебя в главное меню 👇")

/-- Text of the feedback prompt. -/
def feedbackPromptMsg : Str := str ("Понравился наш ответ?")

/-- Text of the ask-another-question hint. -/
def askMoreMsg : Str := str ("Можешь задать ещё вопрос или напиши \x27стоп\x27, чтобы вернуться в меню.")

/-- Fixed fallback reply on an `asyncio.TimeoutError`. -/
def timeoutFallbackMsg : Str := str ("AI долго думает. Попробуй задать вопрос ещё раз чуть позже.")

/-- Fixed fallback reply in the caller's `except Exception` branch. -/
def errorFallbackMsg : Str := str ("Не удалось получить ответ от ИИ. Попробуй ещё раз позже.")

/-- Text of the photo-confirmation prompt. -/
def confirmPhotosMsg : Str := str ("Отправить фотографии этих машин? (да/нет)")

/-- Re-prompt in `ask_ai_confirm` for an unrecognized answer. -/
def yesNoRepromptMsg : Str := str ("Пожалуйста, ответь \x27да\x27 или \x27нет\x27.")

/-- Reply on a negative answer in `ask_ai_confirm`. -/
def noAnswerMsg : Str := str ("Хорошо! Можешь задать ещё вопрос или написать \x27стоп\x27.")

/-- Re-prompt of `search_by_price` for input without digits. -/
def priceRepromptMsg : Str := str ("❗ Введите число (например: 12000000)")

/-- External collaborators of one `handle_message` turn: the catalog snapshot
(the `cars` table), the canned answer `get_answer(text)` would return, the
AI-invocation oracle, and the id `save_user` would assign. -/
structure TurnEnv where
  catalog : List Car
  storedAnswer : Option Str
  ai : AiEnv
  newUserId : Nat
deriving DecidableEq

/-- `handle_message` of `main.py` for one inbound text message: dispatch on
the chat's state, producing the updated session, the outbound replies and
the audit row, if any. Transport-only effects (loading indicators,
edit-versus-send fallbacks, help-history deletion) are not modelled; the
text that ends up shown to the user is. A missing `user_info` entry during
onboarding is modelled by an empty profile (the source would raise there). -/
def handle_message (env : TurnEnv) (s : ChatSession) (rawText : Str) : TurnResult :=
  let text := pyStrip rawText
  let text_lower := pyLower text
  match s.state with
  | .ask_name =>
    { session := { s with user := some { name := text }, state := .ask_age },
      replies := [.msg (str ("📅 Сколько тебе лет?"))], audit := none }
  | .ask_age =>
    let u := s.user.getD { name := [] }
    { session := { s with user := some { u with age := some text }, state := .ask_city },
      replies := [.msg (str ("🏙️ Из какого ты города?"))], audit := none }
  | .ask_city =>
    let u := s.user.getD { name := [] }
    { session :=
        { s with
          user := some { u with city := some text, id := some env.newUserId },
          state := .idle },
      replies := [.menu (str ("Отлично, ") ++ u.name ++ str ("! 🚘 Выбери категорию:"))],
      audit := none }
  | .filter_brand =>
    let draft : FilterDraft :=
      if text.isEmpty || text_lower = str ("пропустить") then { brand := none }
      else { brand := some text }
    { session := { s with filter_info := some draft, state := .filter_model },
      replies := [.msg (str ("✏️ Укажи модель (или напиши \x27пропустить\x27):"))],
      audit := none }
  | .filter_model =>
    let info := s.filter_info.getD {}
    let info :=
      if text.isEmpty || text_lower = str ("пропустить") then { info with model := none }
      else { info with model := some text }
    let cars := get_cars_by_filters env.catalog info.brand info.model
    let results :=
      if cars.isEmpty then [Reply.msg (str ("😔 Машины по заданным параметрам не найдены."))]
      else Reply.msg (str ("🎯 Результаты фильтра:\n")) :: cars.map carCard
    { session := { s with filter_info := none, state := .idle },
      replies := results ++ [.menu menuPromptMsg], audit := none }
  | .search_by_name =>
    let result := search_car_by_name env.catalog text
    let results :=
      if result.isEmpty then [Reply.msg (str ("😔 Машина не найдена."))]
      else Reply.msg (str ("🔍 Результаты поиска:\n")) :: result.map carCard
    { session := { s with state := .idle },
      replies := results ++ [.menu menuPromptMsg], audit := none }
  | .search_by_price =>
    match firstDigitRun text with
    | none => { session := s, replies := [.msg priceRepromptMsg], audit := none }
    | some run =>
      let price := digitsToNat run
      let result := search_car_by_price env.catalog price
      let results :=
        if result.isEmpty then [Reply.msg (str ("😔 Ничего не найдено."))]
        else
          Reply.msg (str ("💰 Машины около ") ++ pyFormatComma price ++ str (" ₸:\n")) ::
            result.map carCard
      { session := { s with state := .idle },
        replies := results ++ [.menu menuPromptMsg], audit := none }
  | .ask_ai_confirm =>
    if text_lower ∈ STOP_WORDS then
      { session := { s with state := .idle, ai := none },
        replies := [.menu stopMenuMsg], audit := none }
    else
      let suggestions := (s.ai.map AiSession.last_suggestions).getD []
      if text_lower ∈ YES_ANSWERS then
        let shown :=
          if suggestions.isEmpty then
            [Reply.msg (str ("Пока нечего показать, но я готов помочь с другими вариантами."))]
          else suggestions.map carCard ++ [Reply.msg (str ("Готово! Делюсь вариантами 👇"))]
        { session :=
            { s with
              ai := s.ai.map (fun a => { a with last_suggestions := [] }),
              state := .ask_ai },
          replies := shown ++ [.msg askMoreMsg], audit := none }
      else if text_lower ∈ NO_ANSWERS then
        { session := { s with state := .ask_ai },
          replies := [.msg noAnswerMsg], audit := none }
      else
        { session := s, replies := [.msg yesNoRepromptMsg], audit := none }
  | .ask_ai =>
    if text_lower ∈ STOP_WORDS then
      { session := { s with state := .idle, ai := none },
        replies := [.menu stopMenuMsg], audit := none }
    else
      let session0 := get_ai_session s.ai
      let history1 := dequeAppend 10 session0.history (str ("user"), text)
      match env.storedAnswer with
      | some answer =>
        let history2 := dequeAppend 10 history1 (str ("assistant"), answer)
        { session :=
            { s with
              ai := some
                { history := history2, last_suggestions := [],
                  last_feedback := some (text, answer) } },
          replies := [.msg answer, .msg feedbackPromptMsg, .msg askMoreMsg],
          audit := none }
      | none =>
        let out := aiTurnOutcome env.ai
        let history2 := dequeAppend 10 history1 (str ("assistant"), out.response)
        let suggestions := match_cars_from_response env.catalog out.response
        let confirmReplies :=
          if suggestions.isEmpty then [Reply.msg askMoreMsg] else [Reply.msg confirmPhotosMsg]
        { session :=
            { s with
              ai := some
                { history := history2, last_suggestions := suggestions,
                  last_feedback := some (text, out.response) },
              state := if suggestions.isEmpty then .ask_ai else .ask_ai_confirm },
          replies := [.msg out.response, .msg feedbackPromptMsg] ++ confirmReplies,
          audit := some
            { question := text, answer := out.response, status := out.status,
              error := out.error } }
  | .idle => { session := s, replies := [], audit := none }

/-- Fuel-bounded deduplication: take records with unseen keys until the fuel
runs out, returning the taken records, the grown key set and the leftover
fuel. Proof device relating the break-at-five loops to `matchCarsSpec`. -/
def dedupTakeGo : List Car → List (Str × Str) → Nat → List Car × List (Str × Str) × Nat
  | [], seen, fuel => ([], seen, fuel)
  | car :: rest, seen, fuel =>
    if fuel = 0 then ([], seen, 0)
    else if carKey car ∈ seen then dedupTakeGo rest seen fuel
    else
      let r := dedupTakeGo rest (carKey car :: seen) (fuel - 1)
      (car :: r.1, r.2.1, r.2.2)

/-- The last `n` elements of a list (what a `deque(maxlen=n)` retains). -/
def takeLast (n : Nat) (l : List α) : List α := l.drop (l.length - n)

/-- Modelled from the spec: the whole extractor with steps 5-7 replaced by
the gather-all/deduplicate/cap-at-five description. -/
def matchCarsFromResponseSpec (catalog : List Car) (response : Str) : List Car :=
  match rfindIdx marker (pyLower response) with
  | none => []
  | some idx => matchCarsSpec catalog (parseTokens (pyStrip (response.drop (idx + marker.length))))

/-- An AI oracle that is never consulted in the scenarios using it. -/
def trivialAiEnv : AiEnv := { timedOut := false, first := .ok [], second := .ok [] }

/-- A turn environment with an empty catalog and no canned answer. -/
def emptyEnv : TurnEnv :=
  { catalog := [], storedAnswer := none, ai := trivialAiEnv, newUserId := 0 }

def tCamry : Car :=
  { category := str ("Легковой"), brand := str ("Toyota"), model := str ("Camry 50"),
    price := str ("12 000 000 ₸"), description := str ("седан"), image := some (str ("camry.jpg")),
    specs := str ("2.5") }

def tCorolla : Car :=
  { category := str ("Легковой"), brand := str ("Toyota"), model := str ("Corolla"),
    price := str ("9 000 000 ₸"), description := str ("седан"), image := none, specs := str ("1.6") }

def hElantra : Car :=
  { category := str ("Легковой"), brand := str ("Hyundai"), model := str ("Elantra"),
    price := str ("10 500 000 ₸"), description := str ("седан"), image := some (str ("elantra.jpg")),
    specs := str ("1.6") }

/-- Eleven distinct history entries, for witnessing the history bound. -/
def c6Entries : List (Str × Str) :=
  [(str ("u1"), str ("a")), (str ("u2"), str ("a")), (str ("u3"), str ("a")),
   (str ("u4"), str ("a")), (str ("u5"), str ("a")), (str ("u6"), str ("a")),
   (str ("u7"), str ("a")), (str ("u8"), str ("a")), (str ("u9"), str ("a")),
   (str ("u10"), str ("a")), (str ("u11"), str ("a"))]

/-- Environment in which the backend raises a non-timeout exception inside
`ask_ollama`. -/
def httpErrorEnv : TurnEnv :=
  { catalog := [], storedAnswer := none,
    ai := { timedOut := false, first := .raiseOther (str ("HTTPError 500")), second := .ok [] },
    newUserId := 0 }

/-- Environment whose bounded AI invocation times out. -/
def timeoutEnv : TurnEnv :=
  { catalog := [], storedAnswer := none,
    ai := { timedOut := true, first := .ok [], second := .ok [] }, newUserId := 0 }

/-- Environment whose AI reply is the no-data recommendation line. -/
def noDataEnv : TurnEnv :=
  { catalog := [tCamry, hElantra], storedAnswer := none,
    ai := { timedOut := false, first := .ok (str ("Рекомендую: нет данных")), second := .ok [] },
    newUserId := 0 }

/-- A chat sitting in `ask_ai` with a fresh AI session. -/
def askAiSession : ChatSession := { state := .ask_ai, ai := some freshAiSession }

/-- A chat in `ask_ai_confirm` holding one cached suggestion. -/
def confirmSession : ChatSession :=
  { state := .ask_ai_confirm,
    ai := some { history := [], last_suggestions := [tCamry], last_feedback := none } }

lemma dedupTakeGo_zero (l : List Car) (seen : List (Str × Str)) :
    dedupTakeGo l seen 0 = ([], seen, 0) := by
  cases l with
  | nil => rfl
  | cons car rest => simp [dedupTakeGo]

lemma dedupTakeGo_append (l₁ l₂ : List Car) (seen : List (Str × Str)) (fuel : Nat) :
    dedupTakeGo (l₁ ++ l₂) seen fuel =
      ((dedupTakeGo l₁ seen fuel).1 ++
        (dedupTakeGo l₂ (dedupTakeGo l₁ seen fuel).2.1 (dedupTakeGo l₁ seen fuel).2.2).1,
       (dedupTakeGo l₂ (dedupTakeGo l₁ seen fuel).2.1 (dedupTakeGo l₁ seen fuel).2.2).2) := by
  induction l₁ generalizing seen fuel with
  | nil => simp [dedupTakeGo]
  | cons car rest ih =>
    by_cases hf : fuel = 0
    · subst hf
      simp [dedupTakeGo, dedupTakeGo_zero]
    · by_cases hs : carKey car ∈ seen
      · simp [dedupTakeGo, hf, hs, ih]
      · simp [dedupTakeGo, hf, hs, ih]

lemma dedupTakeGo_fst (l : List Car) (seen : List (Str × Str)) (fuel : Nat) :
    (dedupTakeGo l seen fuel).1 = (dedupByKey l seen).take fuel := by
  induction l generalizing seen fuel with
  | nil => simp [dedupTakeGo, dedupByKey]
  | cons car rest ih =>
    by_cases hf : fuel = 0
    · subst hf
      simp [dedupTakeGo_zero]
    · by_cases hs : carKey car ∈ seen
      · rw [dedupTakeGo, if_neg hf, if_pos hs, dedupByKey, if_pos hs]
        exact ih seen fuel
      · obtain ⟨f, rfl⟩ : ∃ f, fuel = f + 1 :=
          ⟨fuel - 1, (Nat.succ_pred_eq_of_pos (Nat.pos_of_ne_zero hf)).symm⟩
        rw [dedupTakeGo, if_neg hf, if_neg hs, dedupByKey, if_neg hs]
        simp only [Nat.add_sub_cancel, List.take_succ_cons]
        rw [ih (carKey car :: seen) f]

lemma dedupTakeGo_fuel_le (l : List Car) (seen : List (Str × Str)) (fuel : Nat) :
    (dedupTakeGo l seen fuel).2.2 ≤ fuel := by
  induction l generalizing seen fuel with
  | nil => simp [dedupTakeGo]
  | cons car rest ih =>
    by_cases hf : fuel = 0
    · subst hf
      simp [dedupTakeGo]
    · by_cases hs : carKey car ∈ seen
      · rw [dedupTakeGo, if_neg hf, if_pos hs]
        exact ih seen fuel
      · rw [dedupTakeGo, if_neg hf, if_neg hs]
        have := ih (carKey car :: seen) (fuel - 1)
        simp only []
        omega

lemma dedupTakeGo_length (l : List Car) (seen : List (Str × Str)) (fuel : Nat) :
    (dedupTakeGo l seen fuel).1.length = fuel - (dedupTakeGo l seen fuel).2.2 := by
  induction l generalizing seen fuel with
  | nil => simp [dedupTakeGo]
  | cons car rest ih =>
    by_cases hf : fuel = 0
    · subst hf
      simp [dedupTakeGo]
    · by_cases hs : carKey car ∈ seen
      · rw [dedupTakeGo, if_neg hf, if_pos hs]
        exact ih seen fuel
      · rw [dedupTakeGo, if_neg hf, if_neg hs]
        have h1 := ih (carKey car :: seen) (fuel - 1)
        have h2 := dedupTakeGo_fuel_le rest (carKey car :: seen) (fuel - 1)
        simp only [List.length_cons]
        omega

lemma matchInner_eq (tl : Str) (cars : List Car) :
    ∀ (acc : List Car) (seen : List (Str × Str)),
      acc.length < 5 →
      matchInner tl cars acc seen =
        (acc ++ (dedupTakeGo (cars.filter (fun car => carTokenMatch car tl)) seen (5 - acc.length)).1,
         (dedupTakeGo (cars.filter (fun car => carTokenMatch car tl)) seen (5 - acc.length)).2.1) := by
  induction cars with
  | nil => intro acc seen _; simp [matchInner, dedupTakeGo]
  | cons car rest ih =>
    intro acc seen h
    have hf : ¬ (5 - acc.length = 0) := by omega
    cases hm : carTokenMatch car tl with
    | false =>
      simp only [matchInner, hm, Bool.false_eq_true, if_false, List.filter_cons, ite_false]
      exact ih acc seen h
    | true =>
      by_cases hs : carKey car ∈ seen
      · have h5 : ¬ (5 ≤ acc.length) := by omega
        simp only [matchInner, hm, if_true, if_pos hs, List.filter_cons, ite_true]
        rw [dedupTakeGo, if_neg hf, if_pos hs]
        simp only [if_neg h5]
        exact ih acc seen h
      · by_cases h4 : acc.length = 4
        · have h5 : 5 ≤ (acc ++ [car]).length := by simp [h4]
          simp only [matchInner, hm, if_true, if_neg hs, List.filter_cons, ite_true]
          simp only [if_pos h5]
          rw [dedupTakeGo, if_neg hf, if_neg hs]
          have hfz : 5 - acc.length - 1 = 0 := by omega
          rw [hfz, dedupTakeGo_zero]
        · have h5 : ¬ (5 ≤ (acc ++ [car]).length) := by
            simp only [List.length_append, List.length_cons, List.length_nil]
            omega
          simp only [matchInner, hm, if_true, if_neg hs, List.filter_cons, ite_true]
          simp only [if_neg h5]
          rw [dedupTakeGo, if_neg hf, if_neg hs]
          have hlen : (acc ++ [car]).length < 5 := by
            simp only [List.length_append, List.length_cons, List.length_nil]
            omega
          rw [ih (acc ++ [car]) (carKey car :: seen) hlen]
          have harith : 5 - (acc ++ [car]).length = 5 - acc.length - 1 := by
            simp only [List.length_append, List.length_cons, List.length_nil]
            omega
          rw [harith]
          simp

lemma matchOuter_eq (catalog : List Car) (tokens : List Str) :
    ∀ (acc : List Car) (seen : List (Str × Str)),
      acc.length < 5 →
      matchOuter catalog tokens acc seen =
        acc ++ (dedupTakeGo (tokens.flatMap (matchesOfToken catalog)) seen (5 - acc.length)).1 := by
  induction tokens with
  | nil => intro acc seen _; simp [matchOuter, dedupTakeGo]
  | cons token rest ih =>
    intro acc seen h
    by_cases hsent : pyLower token ∈ noDataTokens
    · rw [matchOuter, if_pos hsent]
      have hmt : matchesOfToken catalog token = [] := by
        simp [matchesOfToken, hsent]
      simp only [List.flatMap_cons, hmt, List.nil_append]
      exact ih acc seen h
    · have hmt : matchesOfToken catalog token =
          catalog.filter (fun car => carTokenMatch car (pyLower token)) := by
        simp [matchesOfToken, hsent]
      rw [matchOuter, if_neg hsent]
      rw [matchInner_eq (pyLower token) catalog acc seen h]
      set g := dedupTakeGo (catalog.filter (fun car => carTokenMatch car (pyLower token)))
        seen (5 - acc.length) with hg
      have hlen : g.1.length = (5 - acc.length) - g.2.2 := dedupTakeGo_length ..
      have hle : g.2.2 ≤ 5 - acc.length := dedupTakeGo_fuel_le ..
      simp only [List.flatMap_cons, hmt, dedupTakeGo_append, ← hg]
      by_cases hz : g.2.2 = 0
      · have h5 : 5 ≤ (acc ++ g.1).length := by
          simp only [List.length_append]
          omega
        rw [if_pos h5, hz, dedupTakeGo_zero]
        simp
      · have h5 : ¬ (5 ≤ (acc ++ g.1).length) := by
          simp only [List.length_append]
          omega
        rw [if_neg h5]
        have hlt : (acc ++ g.1).length < 5 := by
          simp only [List.length_append]
          omega
        rw [ih (acc ++ g.1) g.2.1 hlt]
        have harith : 5 - (acc ++ g.1).length = g.2.2 := by
          simp only [List.length_append]
          omega
        rw [harith]
        simp

lemma matchOuter_eq_spec (catalog : List Car) (tokens : List Str) :
    matchOuter catalog tokens [] [] = matchCarsSpec catalog tokens := by
  rw [matchOuter_eq catalog tokens [] [] (by decide)]
  rw [matchCarsSpec]
  simp [dedupTakeGo_fst]

lemma parseTokens_nil : parseTokens [] = [] := by decide

lemma match_cars_eq_spec (catalog : List Car) (response : Str) :
    match_cars_from_response catalog response = matchCarsFromResponseSpec catalog response := by
  rw [match_cars_from_response, matchCarsFromResponseSpec]
  cases hidx : rfindIdx marker (pyLower response) with
  | none => rfl
  | some idx =>
    simp only []
    set rec := pyStrip (response.drop (idx + marker.length)) with hrec
    by_cases hempty : rec.isEmpty
    · have hnil : rec = [] := List.isEmpty_iff.mp hempty
      rw [if_pos hempty, hnil, parseTokens_nil]
      simp [matchCarsSpec, dedupByKey]
    · rw [if_neg hempty]
      by_cases htok : (parseTokens rec).isEmpty
      · have hnil : parseTokens rec = [] := List.isEmpty_iff.mp htok
        rw [if_pos htok, hnil]
        simp [matchCarsSpec, dedupByKey]
      · rw [if_neg htok, matchOuter_eq_spec]

lemma takeLast_length_le (n : Nat) (l : List α) : (takeLast n l).length ≤ n := by
  simp only [takeLast, List.length_drop]
  omega

lemma takeLast_of_length_le {n : Nat} {l : List α} (h : l.length ≤ n) : takeLast n l = l := by
  simp [takeLast, Nat.sub_eq_zero_of_le h]

lemma takeLast_idem_append (n : Nat) (A r : List α) :
    takeLast n (takeLast n A ++ r) = takeLast n (A ++ r) := by
  simp only [takeLast, List.length_append, List.length_drop]
  rw [List.drop_append_eq_append_drop, List.drop_append_eq_append_drop, List.drop_drop]
  have e1 : A.length - n + (A.length - (A.length - n) + r.length - n)
      = A.length + r.length - n := by omega
  have e2 : A.length - (A.length - n) + r.length - n - (List.drop (A.length - n) A).length
      = A.length + r.length - n - A.length := by
    simp only [List.length_drop]
    omega
  rw [e1, e2]

lemma foldl_dequeAppend (n : Nat) (xs : List α) :
    ∀ acc : List α, acc.length ≤ n →
      List.foldl (dequeAppend n) acc xs = takeLast n (acc ++ xs) := by
  induction xs with
  | nil =>
    intro acc h
    simpa using (takeLast_of_length_le h).symm
  | cons x xs ih =>
    intro acc h
    rw [List.foldl_cons]
    have hstep : dequeAppend n acc x = takeLast n (acc ++ [x]) := rfl
    rw [hstep, ih (takeLast n (acc ++ [x])) (takeLast_length_le ..), takeLast_idem_append]
    simp

lemma dropWhile_append_cons (p : Char → Bool) (X Y : Str) (c : Char) (hc : p c = false) :
    (X ++ c :: Y).dropWhile p = X.dropWhile p ++ c :: Y := by
  induction X with
  | nil => simp [List.dropWhile_cons, hc]
  | cons x X ih =>
    by_cases hx : p x
    · simp [List.dropWhile_cons, hx, ih]
    · simp [List.dropWhile_cons, hx]

lemma dropTrailing_append_cons (p : Char → Bool) (X Y : Str) (c : Char) (hc : p c = false) :
    dropTrailing p (X ++ c :: Y) = X ++ c :: dropTrailing p Y := by
  simp only [dropTrailing]
  rw [show (X ++ c :: Y).reverse = Y.reverse ++ c :: X.reverse by simp]
  rw [dropWhile_append_cons p Y.reverse X.reverse c hc]
  simp

lemma pyStrip_append_cons (A t : Str) :
    pyStrip (A ++ ',' :: t) = A.dropWhile isWs ++ ',' :: dropTrailing isWs t := by
  have hc : isWs ',' = false := by decide
  rw [pyStrip, dropWhile_append_cons isWs A t ',' hc,
    dropTrailing_append_cons isWs (A.dropWhile isWs) t ',' hc]

lemma splitComma_ne_nil (l : Str) : splitComma l ≠ [] := by
  induction l with
  | nil => simp [splitComma]
  | cons c rest ih =>
    by_cases hc : c = ','
    · simp [splitComma, hc]
    · simp only [splitComma, hc, ite_false]
      cases h : splitComma rest with
      | nil => simp
      | cons a as => simp

lemma splitComma_append (X Y : Str) :
    splitComma (X ++ ',' :: Y) = splitComma X ++ splitComma Y := by
  induction X with
  | nil => simp [splitComma]
  | cons x X ih =>
    by_cases hx : x = ','
    · simp [splitComma, hx, ih]
    · simp only [List.cons_append, splitComma, hx, ite_false, List.append_eq]
      rw [ih]
      cases h : splitComma X with
      | nil => exact absurd h (splitComma_ne_nil X)
      | cons a as => simp

lemma parseTokens_append (B C : Str) :
    parseTokens (B ++ ',' :: C) = parseTokens B ++ parseTokens C := by
  unfold parseTokens
  rw [show nlToSpace (B ++ ',' :: C) = nlToSpace B ++ ',' :: nlToSpace C by
    simp [nlToSpace]]
  rw [splitComma_append, List.map_append, List.filter_append]

lemma getLast?_mem_of_eq {l : List α} {a : α} (h : l.getLast? = some a) : a ∈ l := by
  obtain ⟨hne, heq⟩ := List.mem_getLast?_eq_getLast (show a ∈ l.getLast? from h)
  exact heq ▸ List.getLast_mem hne

lemma isPrefixOf_length_le : ∀ (n h : Str), n.isPrefixOf h = true → n.length ≤ h.length := by
  intro n
  induction n with
  | nil => simp
  | cons a n ih =>
    intro h hp
    cases h with
    | nil => simp [List.isPrefixOf] at hp
    | cons b h =>
      simp only [List.isPrefixOf, Bool.and_eq_true] at hp
      simpa using ih h hp.2

lemma rfindIdx_some_facts {needle hay : Str} {i : Nat} (h : rfindIdx needle hay = some i) :
    needle.isPrefixOf (hay.drop i) = true ∧ i ≤ hay.length := by
  unfold rfindIdx at h
  have hm := getLast?_mem_of_eq h
  rw [List.mem_filter] at hm
  exact ⟨by simpa using hm.2, by have := List.mem_range.mp hm.1; omega⟩

lemma matchOuter_sentinels (catalog : List Car) :
    ∀ (tokens : List Str) (acc : List Car) (seen : List (Str × Str)),
      (∀ t ∈ tokens, pyLower t ∈ noDataTokens) →
      matchOuter catalog tokens acc seen = acc := by
  intro tokens
  induction tokens with
  | nil => intro acc seen _; rfl
  | cons t rest ih =>
    intro acc seen h
    have ht := h t (by simp)
    rw [matchOuter, if_pos ht]
    exact ih acc seen (fun x hx => h x (by simp [hx]))

lemma matchCarsSpec_sentinels (catalog : List Car) (tokens : List Str)
    (h : ∀ t ∈ tokens, pyLower t ∈ noDataTokens) :
    matchCarsSpec catalog tokens = [] := by
  have hflat : tokens.flatMap (matchesOfToken catalog) = [] := by
    induction tokens with
    | nil => rfl
    | cons t rest ih =>
      rw [List.flatMap_cons]
      have ht : matchesOfToken catalog t = [] := by
        simp [matchesOfToken, h t (by simp)]
      rw [ht, List.nil_append]
      exact ih (fun x hx => h x (by simp [hx]))
  rw [matchCarsSpec, hflat]
  rfl

lemma noData_extract_empty (catalog : List Car) :
    match_cars_from_response catalog (str ("Рекомендую: нет данных")) = [] := by
  have h : match_cars_from_response catalog (str ("Рекомендую: нет данных"))
      = matchOuter catalog [str ("нет данных")] [] [] := rfl
  rw [h]
  exact matchOuter_sentinels catalog [str ("нет данных")] [] [] (by decide)

/-- C2 (corrected): the extractor equals the gather-all description — for
each non-sentinel token every catalog record whose lowercased full name
matches is collected in catalog order, the concatenation is deduplicated by
`(brand, model)` keeping first occurrences, and at most five records are
returned. -/
theorem C2_extractor_refines_spec (catalog : List Car) (response : Str) :
    match_cars_from_response catalog response = matchCarsFromResponseSpec catalog response :=
  match_cars_eq_spec catalog response

/-- C2 counterexample: with two Toyota records in the catalog, the single
token `Toyota` contributes both records, not only the first matching record
in catalog order as the claim states. -/
theorem C2_counterexample :
    match_cars_from_response [tCamry, tCorolla] (str ("Рекомендую: Toyota"))
      = [tCamry, tCorolla] ∧
    [tCamry, tCorolla] ≠ [tCamry] :=
  ⟨by decide, by decide⟩

/-- C6: appending to a `deque(maxlen=10)` history never leaves more than ten
entries; after exactly eleven appends the buffer is the 2nd through 11th
entries in chronological order, so a first entry that does not recur among
them is absent. -/
theorem C6_history_bound (xs : List (Str × Str)) :
    (List.foldl (dequeAppend 10) [] xs).length ≤ 10 ∧
    (xs.length = 11 → List.foldl (dequeAppend 10) ([] : List (Str × Str)) xs = xs.drop 1) ∧
    (xs.length = 11 → xs.Nodup → ∀ e, xs.head? = some e →
      e ∉ List.foldl (dequeAppend 10) ([] : List (Str × Str)) xs) := by
  have hfold := foldl_dequeAppend 10 xs [] (by simp)
  simp only [List.nil_append] at hfold
  have hdrop : xs.length = 11 →
      List.foldl (dequeAppend 10) ([] : List (Str × Str)) xs = xs.drop 1 := by
    intro hlen
    rw [hfold, takeLast, hlen]
  refine ⟨?_, hdrop, ?_⟩
  · rw [hfold]
    exact takeLast_length_le 10 xs
  · intro hlen hnd e he
    rw [hdrop hlen]
    cases xs with
    | nil => simp at he
    | cons a t =>
      obtain rfl : a = e := by simpa using he
      simpa using (List.nodup_cons.mp hnd).1

/-- C6 witness: eleven concrete appends. -/
theorem C6_history_bound_witness :
    List.foldl (dequeAppend 10) ([] : List (Str × Str)) c6Entries = c6Entries.drop 1 ∧
    (str ("u1"), str ("a")) ∉ List.foldl (dequeAppend 10) ([] : List (Str × Str)) c6Entries := by
  refine ⟨(C6_history_bound c6Entries).2.1 (by decide), ?_⟩
  exact (C6_history_bound c6Entries).2.2 (by decide) (by decide) (str ("u1"), str ("a")) (by decide)

/-- C9: the reply `Рекомендую: нет данных` extracts to the empty list for
every catalog; more generally the loop returns nothing when every token is a
no-data sentinel; and an `ask_ai` turn receiving that reply leaves the state
at `ask_ai`, not `ask_ai_confirm`. -/
theorem C9_no_data_reply :
    (∀ catalog : List Car,
      match_cars_from_response catalog (str ("Рекомендую: нет данных")) = []) ∧
    (∀ (catalog : List Car) (tokens : List Str),
      (∀ t ∈ tokens, pyLower t ∈ noDataTokens) → matchOuter catalog tokens [] [] = []) ∧
    (∀ (env : TurnEnv) (s : ChatSession) (rawText : Str),
      s.state = PyState.ask_ai →
      pyLower (pyStrip rawText) ∉ STOP_WORDS →
      env.storedAnswer = none →
      env.ai = { timedOut := false, first := .ok (str ("Рекомендую: нет данных")),
                 second := .ok [] } →
      (handle_message env s rawText).session.state = PyState.ask_ai ∧
      (handle_message env s rawText).session.state ≠ PyState.ask_ai_confirm) := by
  refine ⟨noData_extract_empty, fun catalog tokens h => matchOuter_sentinels catalog tokens [] [] h, ?_⟩
  intro env s rawText hst hstop hstored hai
  obtain ⟨st, user, fi, ai⟩ := s
  simp only at hst
  subst hst
  have hout : aiTurnOutcome env.ai =
      { status := str ("ok"), response := str ("Рекомендую: нет данных"), error := none } := by
    rw [hai]
    decide
  have hsugg := noData_extract_empty env.catalog
  constructor
  · simp [handle_message, hstop, hstored, hout, hsugg]
  · simp [handle_message, hstop, hstored, hout, hsugg]

/-- C9 witness: the concrete no-data environment. -/
theorem C9_no_data_reply_witness :
    (handle_message noDataEnv askAiSession (str ("посоветуй"))).session.state = PyState.ask_ai :=
  (C9_no_data_reply.2.2 noDataEnv askAiSession (str ("посоветуй"))
    rfl (by decide) rfl rfl).1

/-- C1 counterexample: in `filter_brand`, the keyword `стоп` is consumed as
the brand value and the state advances to `filter_model` instead of `Idle`. -/
theorem C1_counterexample :
    (handle_message emptyEnv { state := .filter_brand, filter_info := some {} }
        (str ("стоп"))).session.state = PyState.filter_model ∧
    PyState.filter_model ≠ PyState.idle :=
  ⟨by decide, by decide⟩

/-- C1 (corrected): the cancellation keywords (trimmed, case-insensitive) are
honored only in `ask_ai` and `ask_ai_confirm`, where they move the chat to
`Idle` and drop the whole AI session; in `search_by_name` the keyword is
treated as an ordinary search query (the state still ends at `Idle` and the
AI session is untouched); in `filter_brand` it is stored as the brand filter
and the state advances to `filter_model`. -/
theorem C1_cancellation (env : TurnEnv) (s : ChatSession) (rawText : Str)
    (hstop : pyLower (pyStrip rawText) ∈ STOP_WORDS) :
    ((s.state = PyState.ask_ai ∨ s.state = PyState.ask_ai_confirm) →
      (handle_message env s rawText).session.state = PyState.idle ∧
      (handle_message env s rawText).session.ai = none) ∧
    (s.state = PyState.search_by_name →
      (handle_message env s rawText).session.state = PyState.idle ∧
      (handle_message env s rawText).session.ai = s.ai) ∧
    (s.state = PyState.filter_brand →
      (handle_message env s rawText).session.state = PyState.filter_model) := by
  obtain ⟨st, user, fi, ai⟩ := s
  refine ⟨?_, ?_, ?_⟩
  · rintro (h | h) <;> simp only at h <;> subst h <;>
      exact ⟨by simp [handle_message, hstop], by simp [handle_message, hstop]⟩
  · intro h
    simp only at h
    subst h
    cases hrun : firstDigitRun (pyStrip rawText) <;>
      exact ⟨by simp [handle_message], by simp [handle_message]⟩
  · intro h
    simp only at h
    subst h
    simp [handle_message]

/-- C1 witness: `стоп` in `ask_ai` returns the chat to `Idle` and clears the
AI session. -/
theorem C1_cancellation_witness :
    (handle_message emptyEnv askAiSession (str ("стоп"))).session.state = PyState.idle ∧
    (handle_message emptyEnv askAiSession (str ("стоп"))).session.ai = none :=
  (C1_cancellation emptyEnv askAiSession (str ("стоп")) (by decide)).1 (Or.inl rfl)

/-- C5 counterexample: answering `нет` in `ask_ai_confirm` leaves the cached
`last_suggestions` in place instead of discarding them. -/
theorem C5_counterexample :
    ((handle_message emptyEnv confirmSession (str ("нет"))).session.ai.map
        AiSession.last_suggestions = some [tCamry]) ∧
    some [tCamry] ≠ some ([] : List Car) :=
  ⟨by decide, by decide⟩

/-- C5 (corrected): in `ask_ai_confirm`, an affirmative answer delivers every
cached suggestion as a card with media and clears the cache, returning to
`ask_ai`; a negative answer returns to `ask_ai` with the cached suggestions
retained, not cleared (they are only replaced by the next AI turn); any other
non-cancellation answer re-prompts and changes nothing. -/
theorem C5_confirm (env : TurnEnv) (s : ChatSession) (rawText : Str)
    (hst : s.state = PyState.ask_ai_confirm)
    (hstop : pyLower (pyStrip rawText) ∉ STOP_WORDS) :
    (pyLower (pyStrip rawText) ∈ YES_ANSWERS →
      (handle_message env s rawText).session.state = PyState.ask_ai ∧
      (∀ a, s.ai = some a →
        (handle_message env s rawText).session.ai = some { a with last_suggestions := [] } ∧
        ∀ car ∈ a.last_suggestions, carCard car ∈ (handle_message env s rawText).replies)) ∧
    (pyLower (pyStrip rawText) ∉ YES_ANSWERS → pyLower (pyStrip rawText) ∈ NO_ANSWERS →
      (handle_message env s rawText).session.state = PyState.ask_ai ∧
      (handle_message env s rawText).session.ai = s.ai) ∧
    (pyLower (pyStrip rawText) ∉ YES_ANSWERS → pyLower (pyStrip rawText) ∉ NO_ANSWERS →
      (handle_message env s rawText).session = s ∧
      (handle_message env s rawText).replies = [Reply.msg yesNoRepromptMsg]) := by
  obtain ⟨st, user, fi, ai⟩ := s
  simp only at hst
  subst hst
  refine ⟨?_, ?_, ?_⟩
  · intro hyes
    constructor
    · simp [handle_message, hstop, hyes]
    · intro a ha
      simp only at ha
      subst ha
      constructor
      · simp [handle_message, hstop, hyes]
      · intro car hcar
        have hne : a.last_suggestions.isEmpty = false := by
          cases h : a.last_suggestions with
          | nil => rw [h] at hcar; simp at hcar
          | cons x xs => simp
        simp only [handle_message, if_neg hstop, if_pos hyes, Option.map_some',
          Option.getD_some, hne, Bool.false_eq_true, if_false, ite_false, List.mem_append]
        left
        left
        exact List.mem_map_of_mem carCard hcar
  · intro hno1 hno2
    exact ⟨by simp [handle_message, hstop, hno1, hno2],
           by simp [handle_message, hstop, hno1, hno2]⟩
  · intro hno1 hno2
    exact ⟨by simp [handle_message, hstop, hno1, hno2],
           by simp [handle_message, hstop, hno1, hno2]⟩

/-- C5 witness: answering `да` with one cached suggestion. -/
theorem C5_confirm_witness :
    (handle_message emptyEnv confirmSession (str ("да"))).session.state = PyState.ask_ai ∧
    (handle_message emptyEnv confirmSession (str ("да"))).session.ai =
      some { history := [], last_suggestions := [], last_feedback := none } ∧
    carCard tCamry ∈ (handle_message emptyEnv confirmSession (str ("да"))).replies := by
  have h := (C5_confirm emptyEnv confirmSession (str ("да")) rfl (by decide)).1 (by decide)
  exact ⟨h.1,
    (h.2 { history := [], last_suggestions := [tCamry], last_feedback := none } rfl).1,
    (h.2 { history := [], last_suggestions := [tCamry], last_feedback := none } rfl).2
      tCamry (by decide)⟩

/-- C4: when the bounded AI invocation times out during `ask_ai`, the user
receives the fixed timeout fallback, the state remains `ask_ai`, and the
audit record is saved with status `timeout` and no error detail. -/
theorem C4_timeout (env : TurnEnv) (s : ChatSession) (rawText : Str)
    (hst : s.state = PyState.ask_ai)
    (hstop : pyLower (pyStrip rawText) ∉ STOP_WORDS)
    (hstored : env.storedAnswer = none)
    (htime : env.ai.timedOut = true) :
    (handle_message env s rawText).session.state = PyState.ask_ai ∧
    (handle_message env s rawText).replies.head? = some (Reply.msg timeoutFallbackMsg) ∧
    (handle_message env s rawText).audit =
      some { question := pyStrip rawText, answer := timeoutFallbackMsg,
             status := str ("timeout"), error := none } := by
  obtain ⟨st, user, fi, ai⟩ := s
  simp only at hst
  subst hst
  have hout : aiTurnOutcome env.ai =
      { status := str ("timeout"), response := timeoutFallbackMsg, error := none } := by
    simp [aiTurnOutcome, boundedInvoke, htime, timeoutFallbackMsg]
  have hsugg : match_cars_from_response env.catalog timeoutFallbackMsg = [] := by
    have hidx : rfindIdx marker (pyLower timeoutFallbackMsg) = none := by decide
    simp [match_cars_from_response, hidx]
  refine ⟨?_, ?_, ?_⟩ <;> simp [handle_message, hstop, hstored, hout, hsugg]

/-- C4 witness: a concrete timed-out turn. -/
theorem C4_timeout_witness :
    (handle_message timeoutEnv askAiSession (str ("вопрос"))).session.state = PyState.ask_ai ∧
    (handle_message timeoutEnv askAiSession (str ("вопрос"))).audit =
      some { question := str ("вопрос"), answer := timeoutFallbackMsg,
             status := str ("timeout"), error := none } := by
  have h := C4_timeout timeoutEnv askAiSession (str ("вопрос")) rfl (by decide) rfl rfl
  exact ⟨h.1, h.2.2⟩

/-- C3 (code bug evidence): a non-timeout backend failure never reaches the
caller's `error` branch — `ask_ollama` swallows it — so the turn is recorded
with status `ok`, no captured error detail, and the user-facing reply embeds
the exception text instead of a fixed fallback. -/
theorem C3_error_swallowed :
    (handle_message httpErrorEnv askAiSession (str ("вопрос"))).audit =
      some { question := str ("вопрос"),
             answer := str ("Ошибка при обращении к AI: HTTPError 500"),
             status := str ("ok"), error := none } ∧
    Reply.msg (str ("Ошибка при обращении к AI: HTTPError 500"))
      ∈ (handle_message httpErrorEnv askAiSession (str ("вопрос"))).replies :=
  ⟨by decide, by decide⟩

/-- C8: in `search_by_price`, the input `хочу машину за 12000000` parses to
`12000000` and the catalog is filtered over the closed band
`[10000000, 14000000]`; input without any digit run re-prompts and leaves the
session unchanged. -/
theorem C8_price_band (env : TurnEnv) (s : ChatSession)
    (hst : s.state = PyState.search_by_price) :
    ((handle_message env s (str ("хочу машину за 12000000"))).session.state = PyState.idle ∧
     firstDigitRun (pyStrip (str ("хочу машину за 12000000"))) = some (str ("12000000")) ∧
     digitsToNat (str ("12000000")) = 12000000 ∧
     search_car_by_price env.catalog 12000000 =
       env.catalog.filter (fun car =>
         decide ((10000000 : Int) ≤ priceValue car.price ∧ priceValue car.price ≤ 14000000)) ∧
     (handle_message env s (str ("хочу машину за 12000000"))).replies =
       (if (search_car_by_price env.catalog 12000000).isEmpty then
          [Reply.msg (str ("😔 Ничего не найдено."))]
        else
          Reply.msg (str ("💰 Машины около ") ++ pyFormatComma 12000000 ++ str (" ₸:\n")) ::
            (search_car_by_price env.catalog 12000000).map carCard) ++
         [Reply.menu menuPromptMsg]) ∧
    (∀ rawText, firstDigitRun (pyStrip rawText) = none →
      (handle_message env s rawText).session = s ∧
      (handle_message env s rawText).replies = [Reply.msg priceRepromptMsg]) := by
  obtain ⟨st, user, fi, ai⟩ := s
  simp only at hst
  subst hst
  have hrun : firstDigitRun (pyStrip (str ("хочу машину за 12000000")))
      = some (str ("12000000")) := by decide
  have hnum : digitsToNat (str ("12000000")) = 12000000 := by decide
  have hband : search_car_by_price env.catalog 12000000 =
      env.catalog.filter (fun car =>
        decide ((10000000 : Int) ≤ priceValue car.price ∧ priceValue car.price ≤ 14000000)) := by
    simp only [search_car_by_price]
    norm_num
  refine ⟨⟨?_, hrun, hnum, hband, ?_⟩, ?_⟩
  · simp [handle_message, hrun]
  · simp [handle_message, hrun, hnum]
  · intro rawText hnone
    exact ⟨by simp [handle_message, hnone], by simp [handle_message, hnone]⟩

/-- C8 witness: the concrete price text and a digitless re-prompt. -/
theorem C8_price_band_witness :
    (handle_message emptyEnv { state := .search_by_price }
        (str ("хочу машину за 12000000"))).session.state = PyState.idle ∧
    (handle_message emptyEnv { state := .search_by_price } (str ("привет"))).session
      = { state := .search_by_price } := by
  have h := C8_price_band emptyEnv { state := .search_by_price } rfl
  exact ⟨h.1.1, (h.2 (str ("привет")) (by decide)).1⟩

lemma aiTurnOutcome_status (env : AiEnv) :
    (aiTurnOutcome env).status = str ("ok") ∨ (aiTurnOutcome env).status = str ("timeout") := by
  rw [aiTurnOutcome, boundedInvoke]
  cases htime : env.timedOut
  · simp only [Bool.false_eq_true, if_false, askOllamaCall]
    cases askOllamaBody env.first env.second <;> simp
  · simp

/-- C10: `ask_ollama` is total at its interface — every backend outcome is
returned as a string through `askOllamaCall`, never propagated as an
exception — and consequently every audit record the handler saves carries
status `ok` or `timeout`; the caller's `error` branch is unreachable. -/
theorem C10_ask_ollama_total :
    (∀ first second : HttpOutcome,
      askOllamaCall first second = Except.ok (ask_ollama first second)) ∧
    (∀ (env : TurnEnv) (s : ChatSession) (rawText : Str) (record : AiDialogRecord),
      (handle_message env s rawText).audit = some record →
      record.status = str ("ok") ∨ record.status = str ("timeout")) := by
  constructor
  · intro first second
    rw [askOllamaCall, ask_ollama]
    cases askOllamaBody first second <;> rfl
  · intro env s rawText record h
    obtain ⟨st, user, fi, ai⟩ := s
    cases st with
    | search_by_price =>
      cases hr : firstDigitRun (pyStrip rawText) <;> simp [handle_message, hr] at h
    | ask_ai =>
      by_cases hstop : pyLower (pyStrip rawText) ∈ STOP_WORDS
      · simp [handle_message, hstop] at h
      · cases hsa : env.storedAnswer with
        | some a => simp [handle_message, hstop, hsa] at h
        | none =>
          simp only [handle_message, if_neg hstop, hsa, Option.some.injEq] at h
          rw [← h]
          exact aiTurnOutcome_status env.ai
    | ask_ai_confirm =>
      by_cases hstop : pyLower (pyStrip rawText) ∈ STOP_WORDS
      · simp [handle_message, hstop] at h
      · by_cases hyes : pyLower (pyStrip rawText) ∈ YES_ANSWERS
        · simp [handle_message, hstop, hyes] at h
        · by_cases hno : pyLower (pyStrip rawText) ∈ NO_ANSWERS
          · simp [handle_message, hstop, hyes, hno] at h
          · simp [handle_message, hstop, hyes, hno] at h
    | _ => simp [handle_message] at h

/-- C10 witness: the audit record of a concrete timed-out turn has a
non-error status. -/
theorem C10_ask_ollama_total_witness :
    ({ question := str ("вопрос"), answer := timeoutFallbackMsg, status := str ("timeout"),
       error := none } : AiDialogRecord).status = str ("ok") ∨
    ({ question := str ("вопрос"), answer := timeoutFallbackMsg, status := str ("timeout"),
       error := none } : AiDialogRecord).status = str ("timeout") :=
  C10_ask_ollama_total.2 timeoutEnv askAiSession (str ("вопрос")) _ (by decide)

lemma flatMap_nil_of_forall (f : Str → List Car) :
    ∀ (l : List Str), (∀ x ∈ l, f x = []) → l.flatMap f = [] := by
  intro l
  induction l with
  | nil => intro _; rfl
  | cons x xs ih =>
    intro h
    rw [List.flatMap_cons, h x (by simp), List.nil_append]
    exact ih (fun y hy => h y (by simp [hy]))

/-- C7 counterexample: appending the unrelated trailing text ` Удачи` (which
introduces no second marker occurrence) merges into the last comma-separated
token and changes the extracted set. -/
theorem C7_counterexample :
    match_cars_from_response [tCamry, hElantra] (str ("Рекомендую: Camry, Elantra"))
      = [tCamry, hElantra] ∧
    match_cars_from_response [tCamry, hElantra] (str ("Рекомендую: Camry, Elantra Удачи"))
      = [tCamry] ∧
    ([tCamry] : List Car) ≠ [tCamry, hElantra] :=
  ⟨by decide, by decide, by decide⟩

/-- C7 (corrected): appending trailing text leaves the extracted set
unchanged provided the appended text is separated by a comma, the last
marker occurrence is at the same position (no new occurrence after it), the
original post-marker text carries no trailing whitespace, and no token of
the appended text matches any catalog record. -/
theorem C7_trailing_text (catalog : List Car) (s t : Str) (i : Nat)
    (h1 : rfindIdx marker (pyLower s) = some i)
    (h2 : rfindIdx marker (pyLower (s ++ ',' :: t)) = some i)
    (h3 : pyStrip (s.drop (i + marker.length)) = (s.drop (i + marker.length)).dropWhile isWs)
    (h4 : ∀ tok ∈ parseTokens (dropTrailing isWs t), matchesOfToken catalog tok = []) :
    match_cars_from_response catalog (s ++ ',' :: t) = match_cars_from_response catalog s := by
  rw [match_cars_eq_spec, match_cars_eq_spec]
  simp only [matchCarsFromResponseSpec, h1, h2]
  have hlen : i + marker.length ≤ s.length := by
    obtain ⟨hp, hle⟩ := rfindIdx_some_facts h1
    have hp2 := isPrefixOf_length_le marker ((pyLower s).drop i) hp
    have hmlen : marker.length = 11 := by decide
    simp only [List.length_drop, pyLower, List.length_map] at hp2
    omega
  have hdrop : (s ++ ',' :: t).drop (i + marker.length)
      = s.drop (i + marker.length) ++ ',' :: t := by
    rw [List.drop_append_eq_append_drop, Nat.sub_eq_zero_of_le hlen]
    rfl
  rw [hdrop, pyStrip_append_cons, ← h3, parseTokens_append]
  rw [matchCarsSpec, matchCarsSpec, List.flatMap_append,
    flatMap_nil_of_forall (matchesOfToken catalog) (parseTokens (dropTrailing isWs t)) h4,
    List.append_nil]

/-- C7 witness: appending `, BMW X9` to a marker line extracting `Camry`
leaves the extraction unchanged. -/
theorem C7_trailing_text_witness :
    match_cars_from_response [tCamry] (str ("Рекомендую: Camry") ++ ',' :: str (" BMW X9"))
      = match_cars_from_response [tCamry] (str ("Рекомендую: Camry")) :=
  C7_trailing_text [tCamry] (str ("Рекомендую: Camry")) (str (" BMW X9")) 0
    (by decide) (by decide) (by decide) (by decide)

end CarBot
